import Mathlib

/-!
# Verification of the Hyperliquid order-execution benchmarking engine

A shallow embedding, in Lean 4, of the core of the benchmark repository:
latency percentile statistics (`BenchService.getPercentile`), the
transient/permanent error classifier and exponential-backoff retry loop
(`shouldRetryError` / `retryOperation`), the pending-operation registry fed
by the user-fills subscription, the order-placement and cancel operations of
`OrderService`, the L4 order-book state machine
(`applyL4Update`, `getSortedBids`, `getSortedAsks`), and the benchmark
orchestrator's run guard (`runBenchmark`).

JavaScript numbers are embedded as exact decimal values (`Dec`: an integer
mantissa with a power-of-ten scale) and, where only ordering matters, as
rationals.  JavaScript `Map`s are embedded as insertion-ordered association
lists with in-place replacement on `set` of an existing key, matching the
iteration-order semantics of the source.  Fallible code returns explicit
`thrown`/`ok` results carrying the mutated state, and asynchronous callback
invocation is recorded as an explicit invocation list.
-/

/-! ## Decimal numbers

`Dec m e` stands for the decimal number `m / 10^e`.  This embeds the decimal
string/number values of the source exactly (prices, sizes). -/

structure Dec where
  m : Int
  e : Nat
  deriving DecidableEq, Repr

namespace Dec

/-- The rational value of a decimal number. -/
def toRat (d : Dec) : ℚ := (d.m : ℚ) / (10 : ℚ) ^ d.e

/-- Exact decimal multiplication. -/
def mul (a b : Dec) : Dec := ⟨a.m * b.m, a.e + b.e⟩

/-- Strip trailing fractional zeros (auxiliary, on a mantissa/scale pair). -/
def normAux : Int → Nat → Int × Nat
  | m, 0 => (m, 0)
  | m, e + 1 => if m % 10 = 0 then normAux (m / 10) e else (m, e + 1)

/-- Strip trailing fractional zeros: the canonical form `toString` prints. -/
def norm (d : Dec) : Dec :=
  ⟨(normAux d.m d.e).1, (normAux d.m d.e).2⟩

/-- The number of fractional digits in the canonical decimal rendering of
`d`: the length of the part after the decimal point (`0` when the rendering
has no decimal point), as produced by `Number.prototype.toString`. -/
def fracLen (d : Dec) : Nat := (norm d).e

/-- Rounding from `toFixed`: round a value to `f` fractional digits, half away from the
smaller candidate (the larger integer wins ties, as specified for
`Number.prototype.toFixed`). -/
def toFixed (x : Dec) (f : Nat) : Dec :=
  ⟨⌊x.toRat * (10 : ℚ) ^ f + 1 / 2⌋, f⟩

end Dec

/-! ## Percentile statistics (`BenchService.getPercentile`) -/

/-- Embedding of `getPercentile(sortedArray, percentile)` from
`bench.service.ts`: `index = (percentile / 100) * (length - 1)`; return the
element at `index` when it is integral, otherwise linearly interpolate
between the elements at `floor(index)` and `ceil(index)`. -/
def getPercentile (sortedArray : List ℚ) (percentile : ℚ) : ℚ :=
  if sortedArray.length = 0 then 0
  else
    let index : ℚ := (percentile / 100) * ((sortedArray.length : ℚ) - 1)
    let lower : ℤ := ⌊index⌋
    let upper : ℤ := ⌈index⌉
    if lower = upper then sortedArray.getD lower.toNat 0
    else
      let weight : ℚ := index - (lower : ℚ)
      sortedArray.getD lower.toNat 0 * (1 - weight) +
        sortedArray.getD upper.toNat 0 * weight

/-- C1: on a non-empty ascending-sorted sample list and percentile
`0 ≤ p ≤ 100`, `getPercentile` returns the linear interpolation between the
elements at `⌊(p/100)·(n−1)⌋` and `⌈(p/100)·(n−1)⌉`; on an odd-length sorted
list `getPercentile samples 50` is the exact middle element; and
`getPercentile [10, 20, 30, 40] 50 = 25`. -/
theorem getPercentile_linear_interpolation :
    (∀ (samples : List ℚ) (p : ℚ), samples ≠ [] → samples.Pairwise (· ≤ ·) →
      0 ≤ p → p ≤ 100 →
      getPercentile samples p =
        samples.getD (⌊(p / 100) * ((samples.length : ℚ) - 1)⌋).toNat 0 *
            (1 - ((p / 100) * ((samples.length : ℚ) - 1) -
              (⌊(p / 100) * ((samples.length : ℚ) - 1)⌋ : ℚ))) +
          samples.getD (⌈(p / 100) * ((samples.length : ℚ) - 1)⌉).toNat 0 *
            ((p / 100) * ((samples.length : ℚ) - 1) -
              (⌊(p / 100) * ((samples.length : ℚ) - 1)⌋ : ℚ))) ∧
    (∀ (samples : List ℚ) (k : ℕ), samples.Pairwise (· ≤ ·) →
      samples.length = 2 * k + 1 → getPercentile samples 50 = samples.getD k 0) ∧
    getPercentile [10, 20, 30, 40] 50 = 25 := by
  refine ⟨?_, ?_, ?_⟩
  · intro samples p hne _ _ _
    have hlen : samples.length ≠ 0 := by simpa using hne
    unfold getPercentile
    rw [if_neg hlen]
    set index : ℚ := (p / 100) * ((samples.length : ℚ) - 1) with hidx
    by_cases h : ⌊index⌋ = ⌈index⌉
    · rw [if_pos h]
      have hfl : (⌊index⌋ : ℚ) ≤ index := Int.floor_le index
      have hcl : index ≤ (⌈index⌉ : ℚ) := Int.le_ceil index
      have hint : (⌊index⌋ : ℚ) = index := by
        rw [h] at hfl ⊢
        exact le_antisymm hfl hcl
      rw [← h, hint]
      ring
    · rw [if_neg h]
  · intro samples k _ hlen
    have hne : samples.length ≠ 0 := by omega
    unfold getPercentile
    rw [if_neg hne]
    have hidx : ((50 : ℚ) / 100) * ((samples.length : ℚ) - 1) = (k : ℚ) := by
      rw [hlen]
      push_cast
      ring
    simp [hidx, Int.floor_natCast, Int.ceil_natCast, Int.toNat_natCast]
  · have hceil : ⌈(3 : ℚ) / 2⌉ = 2 := by
      rw [Int.ceil_eq_iff]
      norm_num
    have h2 : Int.toNat 2 = 2 := rfl
    norm_num [getPercentile, hceil, h2]

/-- Witness for C1 at concrete inputs: `[10, 20, 30]` is sorted of odd
length `3 = 2·1 + 1`, and the 50th percentile is its middle element `20`. -/
theorem getPercentile_linear_interpolation_witness :
    getPercentile [(10 : ℚ), 20, 30] 50 = 20 := by
  have h := getPercentile_linear_interpolation.2.1 [(10 : ℚ), 20, 30] 1
    (by norm_num) (by simp)
  simpa using h

/-! ## JavaScript `Map`s as insertion-ordered association lists

`set` of an existing key replaces its value in place (the entry keeps its
position in iteration order); `set` of a fresh key appends.  `values`
enumerates in insertion order.  This matches the iteration-order semantics
of JavaScript `Map`. -/

namespace JsMap

variable {K β : Type} [DecidableEq K]

/-- Lookup, `Map.prototype.get`. -/
def get : List (K × β) → K → Option β
  | [], _ => none
  | (k', v) :: rest, k => if k' = k then some v else get rest k

/-- Insertion, `Map.prototype.set`. -/
def set : List (K × β) → K → β → List (K × β)
  | [], k, v => [(k, v)]
  | (k', v') :: rest, k, v =>
    if k' = k then (k, v) :: rest else (k', v') :: set rest k v

/-- Removal, `Map.prototype.delete`. -/
def del : List (K × β) → K → List (K × β)
  | [], _ => []
  | (k', v') :: rest, k =>
    if k' = k then del rest k else (k', v') :: del rest k

/-- Values, `Map.prototype.values()`, in iteration (insertion) order. -/
def values (m : List (K × β)) : List β := m.map (·.2)

theorem get_set_self (m : List (K × β)) (k : K) (v : β) :
    get (set m k v) k = some v := by
  induction m with
  | nil => simp [set, get]
  | cons p rest ih =>
    by_cases h : p.1 = k
    · simp [set, get, h]
    · simp [set, get, h, ih]

theorem get_set_ne (m : List (K × β)) (k k' : K) (v : β) (h : k ≠ k') :
    get (set m k v) k' = get m k' := by
  induction m with
  | nil => simp [set, get, h]
  | cons p rest ih =>
    by_cases hp : p.1 = k
    · simp [set, get, hp, h]
    · simp only [set, if_neg hp, get]
      by_cases hp' : p.1 = k'
      · simp [hp']
      · simp [hp', ih]

theorem get_del_self (m : List (K × β)) (k : K) : get (del m k) k = none := by
  induction m with
  | nil => simp [del, get]
  | cons p rest ih =>
    by_cases h : p.1 = k
    · simp [del, h, ih]
    · simp [del, get, h, ih]

theorem get_del_ne (m : List (K × β)) (k k' : K) (h : k ≠ k') :
    get (del m k) k' = get m k' := by
  induction m with
  | nil => simp [del]
  | cons p rest ih =>
    by_cases hp : p.1 = k
    · simp [del, get, hp, h, ih]
    · simp only [del, if_neg hp, get]
      by_cases hp' : p.1 = k'
      · simp [hp']
      · simp [hp', ih]

end JsMap

/-! ## Pending-operation registry (`OrderService.pendingOrders` and the
`userFills` subscription handler) -/

/-- One waiter in `pendingOrders`: the venue order id, the wall-clock send
time, and the completion callback (kept abstract as a token of type `κ` so
that invocations can be counted). -/
structure PendingEntry (κ : Type) where
  orderId : String
  startTime : Int
  callback : κ
  deriving DecidableEq

/-- One fill of a `WsUserFills` push message. -/
structure WsFill where
  oid : Nat
  time : Int
  px : Dec
  sz : Dec
  deriving DecidableEq

/-- The payload handed to a fill callback. -/
structure OrderFillResult where
  orderId : String
  fillTime : Int
  fillPrice : Dec
  fillSize : Dec
  notificationTime : Int
  deriving DecidableEq

/-- Embedding of the `userFills` subscription handler of
`initializeWebSocketSubscriptions` (order.service.ts): for each fill in the
message, look the order id up in `pendingOrders`; when a waiter is present,
invoke its callback with the fill data and delete the entry; when absent, do
nothing.  Callback invocations are returned as an explicit list. -/
def handleUserFills {κ : Type} (pending : List (String × PendingEntry κ))
    (fills : List WsFill) (notificationTime : Int) :
    List (String × PendingEntry κ) × List (κ × OrderFillResult) :=
  fills.foldl
    (fun st fill =>
      let orderId := toString fill.oid
      match JsMap.get st.1 orderId with
      | some pendingOrder =>
        (JsMap.del st.1 orderId,
         st.2 ++ [(pendingOrder.callback,
           ⟨orderId, fill.time, fill.px, fill.sz, notificationTime⟩)])
      | none => st)
    (pending, [])

/-- C2: after a waiter is registered for an operation id, delivering a fill
notification for that id invokes exactly that waiter's callback, exactly
once, and removes the entry; delivering a notification for an id with no
registered waiter returns the registry unchanged (and, being a total
function, raises nothing). -/
theorem handleUserFills_resolve :
    (∀ (κ : Type) (pending : List (String × PendingEntry κ))
       (entry : PendingEntry κ) (fill : WsFill) (t : Int),
      handleUserFills (JsMap.set pending (toString fill.oid) entry) [fill] t =
        (JsMap.del (JsMap.set pending (toString fill.oid) entry)
           (toString fill.oid),
         [(entry.callback,
           ⟨toString fill.oid, fill.time, fill.px, fill.sz, t⟩)])) ∧
    (∀ (κ : Type) (pending : List (String × PendingEntry κ))
       (fill : WsFill) (t : Int),
      JsMap.get pending (toString fill.oid) = none →
      handleUserFills pending [fill] t = (pending, [])) := by
  constructor
  · intro κ pending entry fill t
    simp [handleUserFills, JsMap.get_set_self]
  · intro κ pending fill t h
    simp [handleUserFills, h]

/-- Witness for C2: registering id `"42"` (oid 42) and then resolving oid 42
fires the registered callback token once and empties the registry. -/
theorem handleUserFills_resolve_witness :
    handleUserFills (JsMap.set ([] : List (String × PendingEntry ℕ)) "42"
        ⟨"42", 0, 7⟩) [⟨42, 5, ⟨1, 0⟩, ⟨2, 0⟩⟩] 9 =
      ([], [(7, ⟨"42", 5, ⟨1, 0⟩, ⟨2, 0⟩, 9⟩)]) := by
  have h := handleUserFills_resolve.1 ℕ [] ⟨"42", 0, 7⟩ ⟨42, 5, ⟨1, 0⟩, ⟨2, 0⟩⟩ 9
  simpa using h

/-! ## Error classification and retry
(`shouldRetryError`, `retryOperation`) -/

/-- A thrown JavaScript error.  `message = none` models a thrown value with
no usable `message` property (a non-`Error` value, or an absent message),
which the source treats as retryable and reports as `'Unknown error'`. -/
structure JsError where
  message : Option String
  deriving DecidableEq

/-- Substring containment, `String.prototype.includes`. -/
def strIncludes (hay needle : String) : Bool :=
  decide (needle.toList <:+: hay.toList)

/-- Lowercasing, `String.prototype.toLowerCase` (ASCII, as exercised by the
error messages). -/
def strToLower (s : String) : String := String.mk (s.data.map Char.toLower)

/-- Shared body of the two `shouldRetryError` implementations: an error with
a falsy message is retried; otherwise retry exactly when the lowercased
message contains none of the permanent-error substrings. -/
def shouldRetryErrorWith (permanentErrors : List String)
    (error : JsError) : Bool :=
  match error.message with
  | none => true
  | some msg =>
    if msg = "" then true
    else
      let message := strToLower msg
      !(permanentErrors.any fun permError => strIncludes message permError)

namespace BenchService

/-- The permanent-error substrings of `BenchService.shouldRetryError`
(bench service, the orchestrator): rate-limit exhaustion is included. -/
def permanentErrors : List String :=
  ["insufficient balance", "order must have minimum value", "invalid asset",
   "asset not found", "unauthorized", "forbidden", "rate limit exceeded"]

/-- Embedding of `BenchService.shouldRetryError`. -/
def shouldRetryError (error : JsError) : Bool :=
  shouldRetryErrorWith permanentErrors error

end BenchService

namespace OrderService

/-- The permanent-error substrings of `OrderService.shouldRetryError`
(order service): rate-limit exhaustion is absent. -/
def permanentErrors : List String :=
  ["insufficient balance", "order must have minimum value", "invalid asset",
   "asset not found", "unauthorized", "forbidden"]

/-- Embedding of `OrderService.shouldRetryError`. -/
def shouldRetryError (error : JsError) : Bool :=
  shouldRetryErrorWith permanentErrors error

end OrderService

/-- The error thrown when the attempt loop finishes without having recorded
any error (`throw lastError || new Error(...)` with `lastError` null, which
happens only for `maxRetries = 0`). -/
def retriesExhausted (operationName : String) : JsError :=
  ⟨some (operationName ++ " failed after retries")⟩

/-- The observable behaviour of one `retryOperation` call: how many times
the operation was invoked, the sleeps performed between attempts (in order),
and the value returned or error raised. -/
structure RetryTrace (T : Type) where
  attempts : Nat
  sleeps : List Nat
  outcome : Except JsError T

/-- The attempt loop of `retryOperation` (bench service).  `attempt` is the
1-based attempt counter and `remaining` the number of attempts still
allowed; the operation is a function of the attempt number.  On a failure
classified permanent the loop rethrows at once; on a retryable failure with
attempts left it sleeps `baseDelay * 2 ^ (attempt - 1)` and recurses; at the
attempt budget it rethrows the last error. -/
def retryLoop {T : Type} (operation : Nat → Except JsError T)
    (shouldRetry : JsError → Bool) (baseDelay : Nat) (operationName : String) :
    (attempt remaining : Nat) → RetryTrace T
  | _, 0 => ⟨0, [], .error (retriesExhausted operationName)⟩
  | attempt, remaining + 1 =>
    match operation attempt with
    | .ok v => ⟨1, [], .ok v⟩
    | .error e =>
      if shouldRetry e = false then ⟨1, [], .error e⟩
      else if remaining = 0 then ⟨1, [], .error e⟩
      else
        let rest := retryLoop operation shouldRetry baseDelay operationName
          (attempt + 1) remaining
        ⟨rest.attempts + 1, baseDelay * 2 ^ (attempt - 1) :: rest.sleeps,
         rest.outcome⟩

/-- Embedding of `retryOperation(operation, maxRetries, baseDelay,
operationName)` (bench service): up to `maxRetries` attempts with
exponential backoff, using `BenchService.shouldRetryError` to classify. -/
def retryOperation {T : Type} (operation : Nat → Except JsError T)
    (maxRetries baseDelay : Nat) (operationName : String) : RetryTrace T :=
  retryLoop operation BenchService.shouldRetryError baseDelay operationName
    1 maxRetries

theorem retryLoop_all_transient {T : Type} (operation : Nat → Except JsError T)
    (err : Nat → JsError) (baseDelay : Nat) (operationName : String)
    (hop : ∀ k, operation k = .error (err k))
    (hretry : ∀ k, BenchService.shouldRetryError (err k) = true) :
    ∀ remaining attempt, 1 ≤ remaining → 1 ≤ attempt →
      retryLoop operation BenchService.shouldRetryError baseDelay
          operationName attempt remaining =
        ⟨remaining,
         (List.range (remaining - 1)).map
           (fun j => baseDelay * 2 ^ (attempt - 1 + j)),
         .error (err (attempt + (remaining - 1)))⟩ := by
  intro remaining
  induction remaining with
  | zero => omega
  | succ r ih =>
    intro attempt _ hattempt
    rw [retryLoop, hop attempt]
    dsimp only
    rw [hretry attempt]
    by_cases hr : r = 0
    · subst hr
      simp
    · rw [if_neg (by simp), if_neg hr,
        ih attempt.succ (by omega) (by omega)]
      have hsleeps :
          baseDelay * 2 ^ (attempt - 1) ::
              (List.range (r - 1)).map
                (fun j => baseDelay * 2 ^ (attempt + 1 - 1 + j)) =
            (List.range (r + 1 - 1)).map
              (fun j => baseDelay * 2 ^ (attempt - 1 + j)) := by
        rw [show r + 1 - 1 = (r - 1) + 1 by omega, List.range_succ_eq_map,
          List.map_cons, List.map_map]
        refine congrArg₂ List.cons (by simp) ?_
        refine List.map_congr_left fun j _ => ?_
        have hj : attempt - 1 + (j + 1) = attempt + 1 - 1 + j := by omega
        simp [Function.comp, hj]
      have hidx2 : attempt + 1 + (r - 1) = attempt + (r + 1 - 1) := by omega
      simp only [RetryTrace.mk.injEq]
      exact ⟨trivial, hsleeps, by rw [hidx2]⟩

/-- C3: an operation that raises a transient (retryable) error on every
attempt is attempted exactly `maxAttempts` times, with sleeps of
`baseDelay * 2 ^ (attempt − 1)` between consecutive attempts, after which
the error of the last attempt is raised to the caller. -/
theorem retryOperation_transient_exhaustion (T : Type)
    (operation : Nat → Except JsError T) (err : Nat → JsError)
    (maxRetries baseDelay : Nat) (operationName : String)
    (hmax : 1 ≤ maxRetries)
    (hop : ∀ k, operation k = .error (err k))
    (hretry : ∀ k, BenchService.shouldRetryError (err k) = true) :
    retryOperation operation maxRetries baseDelay operationName =
      ⟨maxRetries,
       (List.range (maxRetries - 1)).map (fun j => baseDelay * 2 ^ j),
       .error (err maxRetries)⟩ := by
  rw [retryOperation,
    retryLoop_all_transient operation err baseDelay operationName hop hretry
      maxRetries 1 hmax le_rfl]
  have h1 : 1 + (maxRetries - 1) = maxRetries := by omega
  simp [h1]

/-- Witness for C3 at `maxAttempts = 3`, `baseDelay = 100` and an operation
failing every attempt with the transient error `"network timeout"`: exactly
3 attempts, sleeps of 100 ms then 200 ms, then the error is raised. -/
theorem retryOperation_transient_exhaustion_witness :
    retryOperation (T := Unit) (fun _ => .error ⟨some "network timeout"⟩)
        3 100 "operation" =
      ⟨3, [100, 200], .error ⟨some "network timeout"⟩⟩ := by
  have hb : BenchService.shouldRetryError ⟨some "network timeout"⟩ = true := by
    decide
  have h := retryOperation_transient_exhaustion Unit
    (fun _ => .error ⟨some "network timeout"⟩)
    (fun _ => ⟨some "network timeout"⟩) 3 100 "operation"
    (by norm_num) (fun _ => rfl) (fun _ => hb)
  simpa [List.range] using h

theorem shouldRetryErrorWith_false_iff (perms : List String) (e : JsError) :
    shouldRetryErrorWith perms e = false ↔
      ∃ msg, e.message = some msg ∧ msg ≠ "" ∧
        (perms.any fun p => strIncludes (strToLower msg) p) = true := by
  obtain ⟨msg⟩ := e
  cases msg with
  | none => simp [shouldRetryErrorWith]
  | some m =>
    by_cases hm : m = ""
    · subst hm
      simp [shouldRetryErrorWith]
    · simp [shouldRetryErrorWith, hm]

/-- C4 (amended): the bench-service classifier `shouldRetryError` — the one
`retryOperation` consults — returns `false` exactly for errors whose
non-empty message contains one of its seven permanent-failure substrings
(insufficient funds, below-minimum order value, invalid/unknown instrument,
authorization failure, rate-limit exhaustion) and `true` for every other
error, including errors without a message; the order-service classifier
behaves the same except that rate-limit exhaustion is absent from its set
(such errors are retried there); consequently `retryOperation` raises a
permanent error after exactly one attempt, with no sleeps, regardless of
the attempt budget. -/
theorem shouldRetryError_classification :
    (∀ e : JsError, BenchService.shouldRetryError e = false ↔
      ∃ msg, e.message = some msg ∧ msg ≠ "" ∧
        (strIncludes (strToLower msg) "insufficient balance" = true ∨
         strIncludes (strToLower msg) "order must have minimum value" = true ∨
         strIncludes (strToLower msg) "invalid asset" = true ∨
         strIncludes (strToLower msg) "asset not found" = true ∨
         strIncludes (strToLower msg) "unauthorized" = true ∨
         strIncludes (strToLower msg) "forbidden" = true ∨
         strIncludes (strToLower msg) "rate limit exceeded" = true)) ∧
    (∀ e : JsError, OrderService.shouldRetryError e = false ↔
      ∃ msg, e.message = some msg ∧ msg ≠ "" ∧
        (strIncludes (strToLower msg) "insufficient balance" = true ∨
         strIncludes (strToLower msg) "order must have minimum value" = true ∨
         strIncludes (strToLower msg) "invalid asset" = true ∨
         strIncludes (strToLower msg) "asset not found" = true ∨
         strIncludes (strToLower msg) "unauthorized" = true ∨
         strIncludes (strToLower msg) "forbidden" = true)) ∧
    (∀ (T : Type) (operation : Nat → Except JsError T) (e : JsError)
       (maxRetries baseDelay : Nat) (operationName : String),
      1 ≤ maxRetries → operation 1 = .error e →
      BenchService.shouldRetryError e = false →
      retryOperation operation maxRetries baseDelay operationName =
        ⟨1, [], .error e⟩) := by
  refine ⟨?_, ?_, ?_⟩
  · intro e
    rw [BenchService.shouldRetryError, shouldRetryErrorWith_false_iff]
    simp [BenchService.permanentErrors, List.any_cons, List.any_nil]
  · intro e
    rw [OrderService.shouldRetryError, shouldRetryErrorWith_false_iff]
    simp [OrderService.permanentErrors, List.any_cons, List.any_nil]
  · intro T operation e maxRetries baseDelay operationName hmax hop hperm
    obtain ⟨r, rfl⟩ : ∃ r, maxRetries = r + 1 := ⟨maxRetries - 1, by omega⟩
    rw [retryOperation, retryLoop, hop]
    dsimp only
    rw [hperm]
    simp

/-- Witness for C4: an `"unauthorized"` error is permanent for both
classifiers, and an operation raising it is abandoned by `retryOperation`
after a single attempt with no backoff sleeps even with a budget of 5. -/
theorem shouldRetryError_classification_witness :
    BenchService.shouldRetryError ⟨some "Unauthorized user"⟩ = false ∧
    retryOperation (T := Unit) (fun _ => .error ⟨some "Unauthorized user"⟩)
        5 100 "operation" = ⟨1, [], .error ⟨some "Unauthorized user"⟩⟩ := by
  have hperm : BenchService.shouldRetryError ⟨some "Unauthorized user"⟩ =
      false := by
    have h := (shouldRetryError_classification.1 ⟨some "Unauthorized user"⟩).2
    exact h ⟨"Unauthorized user", rfl, by decide, by
      refine Or.inr (Or.inr (Or.inr (Or.inr (Or.inl ?_))))
      decide⟩
  refine ⟨hperm, ?_⟩
  exact shouldRetryError_classification.2.2 Unit
    (fun _ => .error ⟨some "Unauthorized user"⟩) ⟨some "Unauthorized user"⟩
    5 100 "operation" (by norm_num) rfl hperm

/-- Counterexample for C4 as stated: the order-service copy of
`shouldRetryError` classifies a rate-limit-exhaustion error as retryable
(`true`), although the claim puts rate-limit exhaustion in the fixed
permanent-failure set for which `shouldRetryError` must return `false`. -/
theorem orderService_rate_limit_retryable :
    OrderService.shouldRetryError ⟨some "rate limit exceeded"⟩ = true ∧
    BenchService.shouldRetryError ⟨some "rate limit exceeded"⟩ = false := by
  constructor
  · decide
  · decide

/-! ## L4 order-book state machine
(`allOrders`, `applyL4Update`, `getSortedBids`, `getSortedAsks` of the
order service in benchmark.interface.ts) -/

/-- Book side: `'B'` for bid, `'A'` for ask. -/
inductive BookSide where
  | B
  | A
  deriving DecidableEq

/-- One resting order of the L4 book (`interface Order`). -/
structure BookOrder where
  coin : String
  side : BookSide
  limitPx : Dec
  sz : Dec
  oid : Nat
  timestamp : Int
  deriving DecidableEq

/-- The `order` payload of one entry of an L4 `Updates` message, with its
status string (`order_statuses[i]`). -/
structure L4OrderStatus where
  status : String
  order : BookOrder
  deriving DecidableEq

/-- Embedding of `applyL4Update(orderStatus)`: `open` inserts or replaces
the id's level; `filled`, `canceled`, `badAloPxRejected` and `rejected`
delete the id; `partialFill` overwrites the remaining size (and timestamp)
of an existing id in place and is a no-op for an unknown id; every other
status only logs and leaves the book unchanged. -/
def applyL4Update (allOrders : List (Nat × BookOrder))
    (orderStatus : L4OrderStatus) : List (Nat × BookOrder) :=
  let oid := orderStatus.order.oid
  if orderStatus.status = "open" then
    JsMap.set allOrders oid orderStatus.order
  else if orderStatus.status = "filled" ∨ orderStatus.status = "canceled" ∨
      orderStatus.status = "badAloPxRejected" ∨
      orderStatus.status = "rejected" then
    JsMap.del allOrders oid
  else if orderStatus.status = "partialFill" then
    match JsMap.get allOrders oid with
    | some existingOrder =>
      JsMap.set allOrders oid
        { existingOrder with
          sz := orderStatus.order.sz
          timestamp := orderStatus.order.timestamp }
    | none => allOrders
  else allOrders

/-- Embedding of `getSortedBids()`: the bid-side values of the id-keyed
book map, sorted descending by price with JavaScript's stable `sort`. -/
def getSortedBids (allOrders : List (Nat × BookOrder)) : List BookOrder :=
  ((JsMap.values allOrders).filter fun o =>
      decide (o.side = BookSide.B)).mergeSort
    fun a b => decide (b.limitPx.toRat ≤ a.limitPx.toRat)

/-- Embedding of `getSortedAsks()`: the ask-side values of the id-keyed
book map, sorted ascending by price with JavaScript's stable `sort`. -/
def getSortedAsks (allOrders : List (Nat × BookOrder)) : List BookOrder :=
  ((JsMap.values allOrders).filter fun o =>
      decide (o.side = BookSide.A)).mergeSort
    fun a b => decide (a.limitPx.toRat ≤ b.limitPx.toRat)

/-- A stable sort leaves every equal-key fibre of the input untouched:
filtering the sorted list by a predicate under which any two matching
elements compare `le` recovers the filtered input verbatim. -/
theorem filter_mergeSort_of_le {α : Type} (le : α → α → Bool)
    (trans : ∀ a b c, le a b → le b c → le a c)
    (total : ∀ a b, le a b || le b a)
    (l : List α) (p : α → Bool)
    (hp : ∀ a b, p a = true → p b = true → le a b = true) :
    (l.mergeSort le).filter p = l.filter p := by
  have hc : (l.filter p).Pairwise (fun a b => le a b = true) := by
    refine List.pairwise_of_forall_mem_list fun a ha b hb => ?_
    exact hp a b (List.mem_filter.mp ha).2 (List.mem_filter.mp hb).2
  have h1 : List.Sublist (l.filter p) (l.mergeSort le) :=
    List.sublist_mergeSort trans total hc (List.filter_sublist l)
  have hff : (l.filter p).filter p = l.filter p :=
    List.filter_eq_self.mpr fun a ha => (List.mem_filter.mp ha).2
  have h3 : List.Sublist (l.filter p) ((l.mergeSort le).filter p) :=
    hff ▸ h1.filter p
  have hlen : ((l.mergeSort le).filter p).length = (l.filter p).length :=
    ((List.mergeSort_perm l le).filter p).length_eq
  exact (h3.eq_of_length hlen.symm).symm

/-- C8: `getSortedBids` returns exactly the bid-side entries of the book
map, sorted descending by price, and `getSortedAsks` exactly the ask-side
entries sorted ascending by price; among entries of equal price both keep
insertion (iteration) order, stated as: the equal-price fibre of the output
is the equal-price fibre of the insertion-ordered input, verbatim. -/
theorem getSorted_queries_spec (allOrders : List (Nat × BookOrder)) :
    List.Perm (getSortedBids allOrders)
      ((JsMap.values allOrders).filter
        (fun o => decide (o.side = BookSide.B))) ∧
    (getSortedBids allOrders).Pairwise
      (fun a b => b.limitPx.toRat ≤ a.limitPx.toRat) ∧
    (∀ q : ℚ, (getSortedBids allOrders).filter
        (fun o => decide (o.limitPx.toRat = q)) =
      ((JsMap.values allOrders).filter
          (fun o => decide (o.side = BookSide.B))).filter
        (fun o => decide (o.limitPx.toRat = q))) ∧
    List.Perm (getSortedAsks allOrders)
      ((JsMap.values allOrders).filter
        (fun o => decide (o.side = BookSide.A))) ∧
    (getSortedAsks allOrders).Pairwise
      (fun a b => a.limitPx.toRat ≤ b.limitPx.toRat) ∧
    (∀ q : ℚ, (getSortedAsks allOrders).filter
        (fun o => decide (o.limitPx.toRat = q)) =
      ((JsMap.values allOrders).filter
          (fun o => decide (o.side = BookSide.A))).filter
        (fun o => decide (o.limitPx.toRat = q))) := by
  have htransB : ∀ a b c : BookOrder,
      decide (b.limitPx.toRat ≤ a.limitPx.toRat) →
      decide (c.limitPx.toRat ≤ b.limitPx.toRat) →
      decide (c.limitPx.toRat ≤ a.limitPx.toRat) := by
    intro a b c hab hbc
    simp only [decide_eq_true_eq] at *
    exact le_trans hbc hab
  have htotalB : ∀ a b : BookOrder,
      decide (b.limitPx.toRat ≤ a.limitPx.toRat) ||
        decide (a.limitPx.toRat ≤ b.limitPx.toRat) := by
    intro a b
    simp [le_total]
  have htransA : ∀ a b c : BookOrder,
      decide (a.limitPx.toRat ≤ b.limitPx.toRat) →
      decide (b.limitPx.toRat ≤ c.limitPx.toRat) →
      decide (a.limitPx.toRat ≤ c.limitPx.toRat) := by
    intro a b c hab hbc
    simp only [decide_eq_true_eq] at *
    exact le_trans hab hbc
  have htotalA : ∀ a b : BookOrder,
      decide (a.limitPx.toRat ≤ b.limitPx.toRat) ||
        decide (b.limitPx.toRat ≤ a.limitPx.toRat) := by
    intro a b
    simp [le_total]
  refine ⟨List.mergeSort_perm _ _, ?_, ?_, List.mergeSort_perm _ _, ?_, ?_⟩
  · have h := List.sorted_mergeSort htransB htotalB
      ((JsMap.values allOrders).filter fun o => decide (o.side = BookSide.B))
    exact h.imp fun hab => of_decide_eq_true hab
  · intro q
    refine filter_mergeSort_of_le _ htransB htotalB _ _ fun a b ha hb => ?_
    simp only [decide_eq_true_eq] at *
    rw [ha, hb]
  · have h := List.sorted_mergeSort htransA htotalA
      ((JsMap.values allOrders).filter fun o => decide (o.side = BookSide.A))
    exact h.imp fun hab => of_decide_eq_true hab
  · intro q
    refine filter_mergeSort_of_le _ htransA htotalA _ _ fun a b ha hb => ?_
    simp only [decide_eq_true_eq] at *
    rw [ha, hb]

/-- C9: a `partialFill` update for an id present in the book replaces that
entry in place with a copy whose remaining size and timestamp come from the
update, keeping its price, side and coin, and leaves every other id's entry
untouched; a `partialFill` for an unknown id, and any unrecognized status
string, leave the book map unchanged. -/
theorem applyL4Update_partialFill_frame :
    (∀ (allOrders : List (Nat × BookOrder)) (upd : L4OrderStatus)
       (existing : BookOrder),
      upd.status = "partialFill" →
      JsMap.get allOrders upd.order.oid = some existing →
      applyL4Update allOrders upd =
          JsMap.set allOrders upd.order.oid
            { existing with
              sz := upd.order.sz
              timestamp := upd.order.timestamp } ∧
        JsMap.get (applyL4Update allOrders upd) upd.order.oid =
          some { existing with
            sz := upd.order.sz
            timestamp := upd.order.timestamp } ∧
        ∀ k, k ≠ upd.order.oid →
          JsMap.get (applyL4Update allOrders upd) k =
            JsMap.get allOrders k) ∧
    (∀ (allOrders : List (Nat × BookOrder)) (upd : L4OrderStatus),
      upd.status = "partialFill" →
      JsMap.get allOrders upd.order.oid = none →
      applyL4Update allOrders upd = allOrders) ∧
    (∀ (allOrders : List (Nat × BookOrder)) (upd : L4OrderStatus),
      upd.status ∉ ["open", "filled", "canceled", "badAloPxRejected",
        "rejected", "partialFill"] →
      applyL4Update allOrders upd = allOrders) := by
  refine ⟨?_, ?_, ?_⟩
  · intro allOrders upd existing hst hget
    have hupdate : applyL4Update allOrders upd =
        JsMap.set allOrders upd.order.oid
          { existing with
            sz := upd.order.sz
            timestamp := upd.order.timestamp } := by
      simp [applyL4Update, hst, hget]
    refine ⟨hupdate, ?_, ?_⟩
    · rw [hupdate, JsMap.get_set_self]
    · intro k hk
      rw [hupdate, JsMap.get_set_ne _ _ _ _ (fun h => hk h.symm)]
  · intro allOrders upd hst hget
    simp [applyL4Update, hst, hget]
  · intro allOrders upd hst
    simp only [List.mem_cons, List.not_mem_nil, or_false, not_or] at hst
    obtain ⟨h1, h2, h3, h4, h5, h6⟩ := hst
    simp [applyL4Update, h1, h2, h3, h4, h5, h6]

/-- Witness for C9 on a concrete two-entry book: a partial fill of oid 1
shrinks its size to 3 and bumps its timestamp, leaves price/side alone and
entry 2 untouched. -/
theorem applyL4Update_partialFill_frame_witness :
    applyL4Update
        [(1, ⟨"SOL", BookSide.B, ⟨100, 0⟩, ⟨5, 0⟩, 1, 10⟩),
         (2, ⟨"SOL", BookSide.A, ⟨101, 0⟩, ⟨4, 0⟩, 2, 10⟩)]
        ⟨"partialFill", ⟨"SOL", BookSide.B, ⟨100, 0⟩, ⟨3, 0⟩, 1, 11⟩⟩ =
      [(1, ⟨"SOL", BookSide.B, ⟨100, 0⟩, ⟨3, 0⟩, 1, 11⟩),
       (2, ⟨"SOL", BookSide.A, ⟨101, 0⟩, ⟨4, 0⟩, 2, 10⟩)] := by
  have h := applyL4Update_partialFill_frame.1
    [(1, ⟨"SOL", BookSide.B, ⟨100, 0⟩, ⟨5, 0⟩, 1, 10⟩),
     (2, ⟨"SOL", BookSide.A, ⟨101, 0⟩, ⟨4, 0⟩, 2, 10⟩)]
    ⟨"partialFill", ⟨"SOL", BookSide.B, ⟨100, 0⟩, ⟨3, 0⟩, 1, 11⟩⟩
    ⟨"SOL", BookSide.B, ⟨100, 0⟩, ⟨5, 0⟩, 1, 10⟩ rfl rfl
  rw [h.1]
  rfl

/-! ## Order-execution gateway (order.service.ts)

The transport clients, instrument metadata and wall clock are an
environment; the service fields (`pendingOrders`, `marketPrices`) are
explicit state.  Each transport call is additionally recorded in an event
trace so that theorems can speak about the requests actually dispatched.
`TryResult` is the outcome of a code block that may throw, carrying the
state as mutated so far. -/

/-- Order side, `'long' | 'short'`. -/
inductive Side where
  | long
  | short
  deriving DecidableEq

/-- Transport selector (`TransportType`). -/
inductive TransportType where
  | http
  | websocket
  deriving DecidableEq

/-- Time-in-force: `Ioc` (market), `Gtc` (limit), `Alo` (post-only). -/
inductive Tif where
  | Ioc
  | Gtc
  | Alo
  deriving DecidableEq

/-- The single-order wire request passed to `exchangeClient.order`
(grouping `'na'`): asset index `a`, buy flag `b`, price string `p`
(produced by `toFixed`), size string `s`, reduce-only `r`, and the order
type's time-in-force. -/
structure OrderRequest where
  a : Nat
  b : Bool
  p : Dec
  s : Dec
  r : Bool
  tif : Tif
  deriving DecidableEq

/-- The wire request passed to `exchangeClient.cancel`. -/
structure CancelRequest where
  a : Nat
  o : Nat
  deriving DecidableEq

/-- One entry of `result.response.data.statuses` of an order call. -/
inductive RespStatus where
  | filled (oid : Nat)
  | resting (oid : Nat)
  | other
  deriving DecidableEq

/-- An order call's response: `none` models a response that is not of type
`'order'` or carries no statuses array. -/
def OrderResponse := Option (List RespStatus)

/-- A cancel call's response: whether `response.type === 'cancel'`, and the
`statuses` string array. -/
structure CancelResponse where
  isCancelType : Bool
  statuses : List String
  deriving DecidableEq

/-- An entry of the `marketPrices` cache. -/
structure MarketPrice where
  bestBid : Dec
  bestAsk : Dec
  timestamp : Int
  deriving DecidableEq

/-- Result type of the three placement operations. -/
structure OrderPlacementResult where
  orderId : String
  success : Bool
  orderSentTime : Int
  orderReturnedTime : Int
  errorMessage : Option String
  deriving DecidableEq

/-- Result type of `cancelOrder`. -/
structure OrderCancelPlacementResult where
  orderId : String
  success : Bool
  cancelSentTime : Int
  cancelReturnedTime : Int
  errorMessage : Option String
  deriving DecidableEq

/-- The payload handed to a cancel callback (API-response timing used for
both fields, per the source's fallback). -/
structure OrderCancelResult where
  orderId : String
  cancelTime : Int
  notificationTime : Int
  deriving DecidableEq

/-- Events observable at the boundary of the order service: transport
calls with the request actually dispatched, and scheduled cancel-callback
invocations (`κc` is the cancel-callback token type). -/
inductive GatewayEvent (κc : Type) where
  | orderCall (transport : TransportType) (req : OrderRequest)
  | cancelCall (req : CancelRequest)
  | cancelNotify (cb : κc) (r : OrderCancelResult)

/-- The mutable fields of `OrderService` touched by the placement/cancel
operations, a logical clock for `Date.now()`, and the event trace. -/
structure OrderServiceState (κ κc : Type) where
  pendingOrders : List (String × PendingEntry κ)
  marketPrices : List (String × MarketPrice)
  tick : Nat
  trace : List (GatewayEvent κc)

/-- The environment: instrument metadata (`meta().universe` asset names),
the L2 book (best bid/ask per symbol), the two transport calls, and the
wall clock (a function of the logical tick). -/
structure OrderEnv where
  meta : Except JsError (List String)
  l2Book : String → Except JsError (Dec × Dec)
  order : TransportType → OrderRequest → Except JsError OrderResponse
  cancel : CancelRequest → Except JsError CancelResponse
  timeAt : Nat → Int

/-- Outcome of a block that may throw: the value or the thrown error,
together with the state as mutated up to that point. -/
inductive TryResult (σ α : Type) where
  | ok (value : α) (state : σ)
  | thrown (e : JsError) (state : σ)

/-- Embedding of `getAssetIndex(symbol)`: find the symbol in `meta().universe`; throw
`Asset <symbol> not found` when absent; rethrow a failed metadata fetch. -/
def getAssetIndex {κ κc : Type} (env : OrderEnv) (s : OrderServiceState κ κc)
    (symbol : String) : TryResult (OrderServiceState κ κc) Nat :=
  match env.meta with
  | .error e => .thrown e s
  | .ok assetUniverse =>
    match assetUniverse.findIdx? (fun name => decide (name = symbol)) with
    | none => .thrown ⟨some ("Asset " ++ symbol ++ " not found")⟩ s
    | some assetIndex => .ok assetIndex s

/-- Embedding of `getMarketPrice(symbol)`: read best bid/ask off the L2 book, cache the
result in `marketPrices`, and return it; rethrow a failed fetch. -/
def getMarketPrice {κ κc : Type} (env : OrderEnv) (s : OrderServiceState κ κc)
    (symbol : String) : TryResult (OrderServiceState κ κc) MarketPrice :=
  match env.l2Book symbol with
  | .error e => .thrown e s
  | .ok bidAsk =>
    let marketPrice : MarketPrice := ⟨bidAsk.1, bidAsk.2, env.timeAt s.tick⟩
    .ok marketPrice
      { s with
        tick := s.tick + 1
        marketPrices := JsMap.set s.marketPrices symbol marketPrice }

/-- Embedding of `getPriceDecimals(symbol, price)`: the fractional-digit count of the
price's decimal rendering when it has a decimal point, else 4; overridden
to 0/1/2 for BTC/ETH/SOL. -/
def getPriceDecimals (symbol : String) (price : Dec) : Nat :=
  let decimals := if price.fracLen ≠ 0 then price.fracLen else 4
  if symbol = "BTC" then 0
  else if symbol = "ETH" then 1
  else if symbol = "SOL" then 2
  else decimals

/-- Extract `(orderId, success)` from an order response for market/limit
orders: both an immediate `filled` and a `resting` status are success. -/
def extractFilledOrResting (resp : OrderResponse) : Option Nat × Bool :=
  match resp with
  | some (RespStatus.filled oid :: _) => (some oid, true)
  | some (RespStatus.resting oid :: _) => (some oid, true)
  | _ => (none, false)

/-- Extract `(orderId, success)` from an order response for post-only
orders: only a `resting` status is success. -/
def extractRestingOnly (resp : OrderResponse) : Option Nat × Bool :=
  match resp with
  | some (RespStatus.resting oid :: _) => (some oid, true)
  | _ => (none, false)

/-- The message reported for a caught value:
`error instanceof Error ? error.message : 'Unknown error'`. -/
def caughtMessage (e : JsError) : String := e.message.getD "Unknown error"

/-- The `catch` block shared by the three placement operations: stamp
`orderReturnedTime`, then `orderSentTime`, and return a failure result with
the caught error's message. -/
def placementCatch {κ κc : Type} (env : OrderEnv) (e : JsError)
    (s : OrderServiceState κ κc) :
    OrderPlacementResult × OrderServiceState κ κc :=
  let orderReturnedTime := env.timeAt s.tick
  let s := { s with tick := s.tick + 1 }
  let sentNow := env.timeAt s.tick
  let s := { s with tick := s.tick + 1 }
  (⟨"", false, sentNow, orderReturnedTime, some (caughtMessage e)⟩, s)

/-- Shared tail of the three placement operations, after the price and
time-in-force have been fixed: dispatch the request, stamp the return
time, extract the outcome, register the fill callback for the venue order
id on success, and build the placement result. -/
def placementDispatch {κ κc : Type} (env : OrderEnv)
    (s : OrderServiceState κ κc) (transportType : TransportType)
    (req : OrderRequest)
    (extract : OrderResponse → Option Nat × Bool)
    (fillCallback : Option κ) :
    TryResult (OrderServiceState κ κc) OrderPlacementResult :=
  let orderSentTime := env.timeAt s.tick
  let s := { s with tick := s.tick + 1 }
  let s := { s with trace := s.trace ++ [GatewayEvent.orderCall transportType req] }
  match env.order transportType req with
  | .error e => .thrown e s
  | .ok resp =>
    let orderReturnedTime := env.timeAt s.tick
    let s := { s with tick := s.tick + 1 }
    let outcome := extract resp
    let s :=
      match outcome.1, outcome.2, fillCallback with
      | some oid, true, some cb =>
        { s with
          pendingOrders := JsMap.set s.pendingOrders (toString oid)
            ⟨toString oid, orderSentTime, cb⟩ }
      | _, _, _ => s
    .ok
      ⟨(outcome.1.map toString).getD "", outcome.2, orderSentTime,
       orderReturnedTime,
       if outcome.2 then none else some "Order placement failed"⟩
      s

/-- Body of `placeMarketOrder` (the `try` block): resolve the asset index,
fetch the market price, derive the aggressive crossing price
(ask × 1.001 long, bid × 0.999 short), round it to the instrument's
decimals, and dispatch an `Ioc` order. -/
def placeMarketOrderBody {κ κc : Type} (env : OrderEnv)
    (s : OrderServiceState κ κc) (symbol : String) (side : Side) (size : Dec)
    (transportType : TransportType) (fillCallback : Option κ) :
    TryResult (OrderServiceState κ κc) OrderPlacementResult :=
  match getAssetIndex env s symbol with
  | .thrown e s => .thrown e s
  | .ok assetIndex s =>
    match getMarketPrice env s symbol with
    | .thrown e s => .thrown e s
    | .ok marketPrice s =>
      let price :=
        match side with
        | Side.long => marketPrice.bestAsk.mul ⟨1001, 3⟩
        | Side.short => marketPrice.bestBid.mul ⟨999, 3⟩
      let decimals := getPriceDecimals symbol price
      placementDispatch env s transportType
        ⟨assetIndex, decide (side = Side.long), price.toFixed decimals, size,
         false, Tif.Ioc⟩
        extractFilledOrResting fillCallback

/-- Embedding of `placeMarketOrder`: the body wrapped in the `try`/`catch` that converts
any thrown error into a failure result. -/
def placeMarketOrder {κ κc : Type} (env : OrderEnv)
    (s : OrderServiceState κ κc) (symbol : String) (side : Side) (size : Dec)
    (transportType : TransportType) (fillCallback : Option κ) :
    TryResult (OrderServiceState κ κc) OrderPlacementResult :=
  match placeMarketOrderBody env s symbol side size transportType
      fillCallback with
  | .ok r s => .ok r s
  | .thrown e s =>
    let caught := placementCatch env e s
    .ok caught.1 caught.2

/-- Body of `placeLimitOrder` (the `try` block): caller-supplied price,
rounded to the instrument's decimals, dispatched as a `Gtc` order. -/
def placeLimitOrderBody {κ κc : Type} (env : OrderEnv)
    (s : OrderServiceState κ κc) (symbol : String) (side : Side) (size : Dec)
    (price : Dec) (transportType : TransportType) (fillCallback : Option κ) :
    TryResult (OrderServiceState κ κc) OrderPlacementResult :=
  match getAssetIndex env s symbol with
  | .thrown e s => .thrown e s
  | .ok assetIndex s =>
    let decimals := getPriceDecimals symbol price
    placementDispatch env s transportType
      ⟨assetIndex, decide (side = Side.long), price.toFixed decimals, size,
       false, Tif.Gtc⟩
      extractFilledOrResting fillCallback

/-- Embedding of `placeLimitOrder`: body plus `catch`. -/
def placeLimitOrder {κ κc : Type} (env : OrderEnv)
    (s : OrderServiceState κ κc) (symbol : String) (side : Side) (size : Dec)
    (price : Dec) (transportType : TransportType) (fillCallback : Option κ) :
    TryResult (OrderServiceState κ κc) OrderPlacementResult :=
  match placeLimitOrderBody env s symbol side size price transportType
      fillCallback with
  | .ok r s => .ok r s
  | .thrown e s =>
    let caught := placementCatch env e s
    .ok caught.1 caught.2

/-- Body of `placePostOnlyOrder` (the `try` block): caller-supplied price,
rounded to the instrument's decimals, dispatched as an `Alo` order; only a
`resting` status counts as success. -/
def placePostOnlyOrderBody {κ κc : Type} (env : OrderEnv)
    (s : OrderServiceState κ κc) (symbol : String) (side : Side) (size : Dec)
    (price : Dec) (transportType : TransportType) (fillCallback : Option κ) :
    TryResult (OrderServiceState κ κc) OrderPlacementResult :=
  match getAssetIndex env s symbol with
  | .thrown e s => .thrown e s
  | .ok assetIndex s =>
    let decimals := getPriceDecimals symbol price
    placementDispatch env s transportType
      ⟨assetIndex, decide (side = Side.long), price.toFixed decimals, size,
       false, Tif.Alo⟩
      extractRestingOnly fillCallback

/-- Embedding of `placePostOnlyOrder`: body plus `catch`. -/
def placePostOnlyOrder {κ κc : Type} (env : OrderEnv)
    (s : OrderServiceState κ κc) (symbol : String) (side : Side) (size : Dec)
    (price : Dec) (transportType : TransportType) (fillCallback : Option κ) :
    TryResult (OrderServiceState κ κc) OrderPlacementResult :=
  match placePostOnlyOrderBody env s symbol side size price transportType
      fillCallback with
  | .ok r s => .ok r s
  | .thrown e s =>
    let caught := placementCatch env e s
    .ok caught.1 caught.2

/-- Body of `cancelOrder` (the `try` block): resolve the asset index,
dispatch the cancel over HTTP, judge success by
`response.type === 'cancel' && statuses[0] === 'success'`, and on success
drop any pending fill registration for the id and schedule the optional
cancel callback with the API-response timestamp. -/
def cancelOrderBody {κ κc : Type} (env : OrderEnv)
    (s : OrderServiceState κ κc) (symbol : String) (orderId : String)
    (cancelCallback : Option κc) :
    TryResult (OrderServiceState κ κc) OrderCancelPlacementResult :=
  match getAssetIndex env s symbol with
  | .thrown e s => .thrown e s
  | .ok assetIndex s =>
    let cancelSentTime := env.timeAt s.tick
    let s := { s with tick := s.tick + 1 }
    let req : CancelRequest := ⟨assetIndex, (orderId.toNat?).getD 0⟩
    let s := { s with trace := s.trace ++ [GatewayEvent.cancelCall req] }
    match env.cancel req with
    | .error e => .thrown e s
    | .ok resp =>
      let cancelReturnedTime := env.timeAt s.tick
      let s := { s with tick := s.tick + 1 }
      let success := resp.isCancelType &&
        decide (resp.statuses.head? = some "success")
      let s :=
        if success then
          let s := { s with pendingOrders := JsMap.del s.pendingOrders orderId }
          match cancelCallback with
          | some cb =>
            { s with
              trace := s.trace ++ [GatewayEvent.cancelNotify cb
                ⟨orderId, cancelReturnedTime, cancelReturnedTime⟩] }
          | none => s
        else s
      .ok
        ⟨orderId, success, cancelSentTime, cancelReturnedTime,
         if success then none else some "Order cancellation failed"⟩
        s

/-- The `catch` block of `cancelOrder`. -/
def cancelCatch {κ κc : Type} (env : OrderEnv) (e : JsError)
    (orderId : String) (s : OrderServiceState κ κc) :
    OrderCancelPlacementResult × OrderServiceState κ κc :=
  let cancelReturnedTime := env.timeAt s.tick
  let s := { s with tick := s.tick + 1 }
  let sentNow := env.timeAt s.tick
  let s := { s with tick := s.tick + 1 }
  (⟨orderId, false, sentNow, cancelReturnedTime, some (caughtMessage e)⟩, s)

/-- Embedding of `cancelOrder`: body plus `catch`. -/
def cancelOrder {κ κc : Type} (env : OrderEnv) (s : OrderServiceState κ κc)
    (symbol : String) (orderId : String) (cancelCallback : Option κc) :
    TryResult (OrderServiceState κ κc) OrderCancelPlacementResult :=
  match cancelOrderBody env s symbol orderId cancelCallback with
  | .ok r s => .ok r s
  | .thrown e s =>
    let caught := cancelCatch env e orderId s
    .ok caught.1 caught.2

theorem placementDispatch_order_error {κ κc : Type} (env : OrderEnv)
    (s : OrderServiceState κ κc) (tr : TransportType) (req : OrderRequest)
    (extract : OrderResponse → Option Nat × Bool) (cb : Option κ)
    (e : JsError) (h : env.order tr req = .error e) :
    placementDispatch env s tr req extract cb =
      .thrown e
        { s with
          tick := s.tick + 1
          trace := s.trace ++ [GatewayEvent.orderCall tr req] } := by
  unfold placementDispatch
  rw [h]

theorem placementDispatch_order_ok {κ κc : Type} (env : OrderEnv)
    (s : OrderServiceState κ κc) (tr : TransportType) (req : OrderRequest)
    (extract : OrderResponse → Option Nat × Bool) (cb : Option κ)
    (resp : OrderResponse) (h : env.order tr req = .ok resp) :
    ∃ r s', placementDispatch env s tr req extract cb = .ok r s' ∧
      s'.trace = s.trace ++ [GatewayEvent.orderCall tr req] := by
  unfold placementDispatch
  rw [h]
  rcases hex : extract resp with ⟨oidOpt, succ⟩
  dsimp only
  rw [hex]
  rcases oidOpt with _ | oid <;> rcases succ with _ | _ <;>
    rcases cb with _ | c <;> exact ⟨_, _, rfl, rfl⟩

theorem placementDispatch_trace {κ κc : Type} (env : OrderEnv)
    (s : OrderServiceState κ κc) (tr : TransportType) (req : OrderRequest)
    (extract : OrderResponse → Option Nat × Bool) (cb : Option κ) :
    (∃ r s', placementDispatch env s tr req extract cb = .ok r s' ∧
       s'.trace = s.trace ++ [GatewayEvent.orderCall tr req]) ∨
    (∃ e s', placementDispatch env s tr req extract cb = .thrown e s' ∧
       s'.trace = s.trace ++ [GatewayEvent.orderCall tr req]) := by
  cases h : env.order tr req with
  | error e =>
    right
    exact ⟨e, _, placementDispatch_order_error env s tr req extract cb e h, rfl⟩
  | ok resp =>
    left
    exact placementDispatch_order_ok env s tr req extract cb resp h

theorem placeMarketOrderBody_trace {κ κc : Type} (env : OrderEnv)
    (s : OrderServiceState κ κc) (symbol : String) (side : Side) (size : Dec)
    (tr : TransportType) (cb : Option κ) (assetUniverse : List String)
    (idx : Nat) (bid ask : Dec)
    (hmeta : env.meta = .ok assetUniverse)
    (hidx : assetUniverse.findIdx? (fun name => decide (name = symbol)) =
      some idx)
    (hl2 : env.l2Book symbol = .ok (bid, ask)) :
    (∃ r s', placeMarketOrderBody env s symbol side size tr cb = .ok r s' ∧
       s'.trace = s.trace ++
         [GatewayEvent.orderCall tr
           ⟨idx, decide (side = Side.long),
            (match side with
             | Side.long => ask.mul ⟨1001, 3⟩
             | Side.short => bid.mul ⟨999, 3⟩).toFixed
              (getPriceDecimals symbol
                (match side with
                 | Side.long => ask.mul ⟨1001, 3⟩
                 | Side.short => bid.mul ⟨999, 3⟩)),
            size, false, Tif.Ioc⟩]) ∨
    (∃ e s', placeMarketOrderBody env s symbol side size tr cb = .thrown e s' ∧
       s'.trace = s.trace ++
         [GatewayEvent.orderCall tr
           ⟨idx, decide (side = Side.long),
            (match side with
             | Side.long => ask.mul ⟨1001, 3⟩
             | Side.short => bid.mul ⟨999, 3⟩).toFixed
              (getPriceDecimals symbol
                (match side with
                 | Side.long => ask.mul ⟨1001, 3⟩
                 | Side.short => bid.mul ⟨999, 3⟩)),
            size, false, Tif.Ioc⟩]) := by
  unfold placeMarketOrderBody getAssetIndex getMarketPrice
  rw [hmeta]
  dsimp only
  rw [hidx]
  dsimp only
  rw [hl2]
  dsimp only
  exact placementDispatch_trace env _ tr _ extractFilledOrResting cb

theorem placeLimitOrderBody_trace {κ κc : Type} (env : OrderEnv)
    (s : OrderServiceState κ κc) (symbol : String) (side : Side)
    (size price : Dec) (tr : TransportType) (cb : Option κ)
    (assetUniverse : List String) (idx : Nat)
    (hmeta : env.meta = .ok assetUniverse)
    (hidx : assetUniverse.findIdx? (fun name => decide (name = symbol)) =
      some idx) :
    (∃ r s',
       placeLimitOrderBody env s symbol side size price tr cb = .ok r s' ∧
       s'.trace = s.trace ++
         [GatewayEvent.orderCall tr
           ⟨idx, decide (side = Side.long),
            price.toFixed (getPriceDecimals symbol price), size, false,
            Tif.Gtc⟩]) ∨
    (∃ e s',
       placeLimitOrderBody env s symbol side size price tr cb = .thrown e s' ∧
       s'.trace = s.trace ++
         [GatewayEvent.orderCall tr
           ⟨idx, decide (side = Side.long),
            price.toFixed (getPriceDecimals symbol price), size, false,
            Tif.Gtc⟩]) := by
  unfold placeLimitOrderBody getAssetIndex
  rw [hmeta]
  dsimp only
  rw [hidx]
  dsimp only
  exact placementDispatch_trace env _ tr _ extractFilledOrResting cb

theorem placePostOnlyOrderBody_trace {κ κc : Type} (env : OrderEnv)
    (s : OrderServiceState κ κc) (symbol : String) (side : Side)
    (size price : Dec) (tr : TransportType) (cb : Option κ)
    (assetUniverse : List String) (idx : Nat)
    (hmeta : env.meta = .ok assetUniverse)
    (hidx : assetUniverse.findIdx? (fun name => decide (name = symbol)) =
      some idx) :
    (∃ r s',
       placePostOnlyOrderBody env s symbol side size price tr cb = .ok r s' ∧
       s'.trace = s.trace ++
         [GatewayEvent.orderCall tr
           ⟨idx, decide (side = Side.long),
            price.toFixed (getPriceDecimals symbol price), size, false,
            Tif.Alo⟩]) ∨
    (∃ e s',
       placePostOnlyOrderBody env s symbol side size price tr cb =
         .thrown e s' ∧
       s'.trace = s.trace ++
         [GatewayEvent.orderCall tr
           ⟨idx, decide (side = Side.long),
            price.toFixed (getPriceDecimals symbol price), size, false,
            Tif.Alo⟩]) := by
  unfold placePostOnlyOrderBody getAssetIndex
  rw [hmeta]
  dsimp only
  rw [hidx]
  dsimp only
  exact placementDispatch_trace env _ tr _ extractRestingOnly cb

/-- C5 (amended): a market order derives its price from the freshly fetched
best bid/ask as ask × 1.001 for a long and bid × 0.999 for a short, while
limit and post-only placements use the caller-supplied price; every
placement dispatches that price rounded by `toFixed` to the
instrument-specific decimal count of `getPriceDecimals`, which is keyed by
symbol (BTC → 0, ETH → 1, SOL → 2) and for an unknown symbol defaults to
the fractional-digit count of the price's decimal rendering when it has a
decimal point, and to 4 when the price renders without one. -/
theorem placement_price_rounding :
    (∀ (κ κc : Type) (env : OrderEnv) (s : OrderServiceState κ κc)
       (symbol : String) (side : Side) (size : Dec) (tr : TransportType)
       (cb : Option κ) (assetUniverse : List String) (idx : Nat)
       (bid ask : Dec),
      env.meta = .ok assetUniverse →
      assetUniverse.findIdx? (fun name => decide (name = symbol)) =
        some idx →
      env.l2Book symbol = .ok (bid, ask) →
      ∃ r s', placeMarketOrder env s symbol side size tr cb = .ok r s' ∧
        s'.trace = s.trace ++
          [GatewayEvent.orderCall tr
            ⟨idx, decide (side = Side.long),
             (match side with
              | Side.long => ask.mul ⟨1001, 3⟩
              | Side.short => bid.mul ⟨999, 3⟩).toFixed
               (getPriceDecimals symbol
                 (match side with
                  | Side.long => ask.mul ⟨1001, 3⟩
                  | Side.short => bid.mul ⟨999, 3⟩)),
             size, false, Tif.Ioc⟩]) ∧
    (∀ (κ κc : Type) (env : OrderEnv) (s : OrderServiceState κ κc)
       (symbol : String) (side : Side) (size price : Dec)
       (tr : TransportType) (cb : Option κ) (assetUniverse : List String)
       (idx : Nat),
      env.meta = .ok assetUniverse →
      assetUniverse.findIdx? (fun name => decide (name = symbol)) =
        some idx →
      ∃ r s',
        placeLimitOrder env s symbol side size price tr cb = .ok r s' ∧
        s'.trace = s.trace ++
          [GatewayEvent.orderCall tr
            ⟨idx, decide (side = Side.long),
             price.toFixed (getPriceDecimals symbol price), size, false,
             Tif.Gtc⟩]) ∧
    (∀ (κ κc : Type) (env : OrderEnv) (s : OrderServiceState κ κc)
       (symbol : String) (side : Side) (size price : Dec)
       (tr : TransportType) (cb : Option κ) (assetUniverse : List String)
       (idx : Nat),
      env.meta = .ok assetUniverse →
      assetUniverse.findIdx? (fun name => decide (name = symbol)) =
        some idx →
      ∃ r s',
        placePostOnlyOrder env s symbol side size price tr cb = .ok r s' ∧
        s'.trace = s.trace ++
          [GatewayEvent.orderCall tr
            ⟨idx, decide (side = Side.long),
             price.toFixed (getPriceDecimals symbol price), size, false,
             Tif.Alo⟩]) ∧
    (∀ price : Dec, getPriceDecimals "BTC" price = 0 ∧
      getPriceDecimals "ETH" price = 1 ∧ getPriceDecimals "SOL" price = 2) ∧
    (∀ (symbol : String) (price : Dec), symbol ≠ "BTC" → symbol ≠ "ETH" →
      symbol ≠ "SOL" →
      getPriceDecimals symbol price =
        if price.fracLen ≠ 0 then price.fracLen else 4) := by
  refine ⟨?_, ?_, ?_, ?_, ?_⟩
  · intro κ κc env s symbol side size tr cb assetUniverse idx bid ask
      hmeta hidx hl2
    rcases placeMarketOrderBody_trace env s symbol side size tr cb
        assetUniverse idx bid ask hmeta hidx hl2 with
      ⟨r, s', heq, htr⟩ | ⟨e, s', heq, htr⟩
    · unfold placeMarketOrder
      rw [heq]
      exact ⟨r, s', rfl, htr⟩
    · unfold placeMarketOrder
      rw [heq]
      refine ⟨_, _, rfl, ?_⟩
      simpa [placementCatch] using htr
  · intro κ κc env s symbol side size price tr cb assetUniverse idx
      hmeta hidx
    rcases placeLimitOrderBody_trace env s symbol side size price tr cb
        assetUniverse idx hmeta hidx with
      ⟨r, s', heq, htr⟩ | ⟨e, s', heq, htr⟩
    · unfold placeLimitOrder
      rw [heq]
      exact ⟨r, s', rfl, htr⟩
    · unfold placeLimitOrder
      rw [heq]
      refine ⟨_, _, rfl, ?_⟩
      simpa [placementCatch] using htr
  · intro κ κc env s symbol side size price tr cb assetUniverse idx
      hmeta hidx
    rcases placePostOnlyOrderBody_trace env s symbol side size price tr cb
        assetUniverse idx hmeta hidx with
      ⟨r, s', heq, htr⟩ | ⟨e, s', heq, htr⟩
    · unfold placePostOnlyOrder
      rw [heq]
      exact ⟨r, s', rfl, htr⟩
    · unfold placePostOnlyOrder
      rw [heq]
      refine ⟨_, _, rfl, ?_⟩
      simpa [placementCatch] using htr
  · intro price
    refine ⟨by simp [getPriceDecimals], by simp [getPriceDecimals],
      by simp [getPriceDecimals]⟩
  · intro symbol price h1 h2 h3
    simp [getPriceDecimals, h1, h2, h3]

/-- Counterexample for C5 as stated: for the unknown symbol `"XRP"` and the
integer price 100 (decimal rendering `"100"`, natural decimal length 0),
`getPriceDecimals` returns the hard default 4, not the price's natural
decimal length. -/
theorem getPriceDecimals_integer_default_counterexample :
    getPriceDecimals "XRP" ⟨100, 0⟩ = 4 ∧ Dec.fracLen ⟨100, 0⟩ = 0 := by
  constructor
  · rfl
  · rfl

/-- Witness for C5: a short market order on BTC with best bid 100 prices at
100 × 0.999 = 99.9, rounded by the BTC precision (0 decimals) to 100, and
that request goes out on the wire. -/
theorem placement_price_rounding_witness :
    ∃ (r : OrderPlacementResult) (s' : OrderServiceState Unit Unit),
      placeMarketOrder
          ⟨.ok ["BTC", "ETH"], fun _ => .ok (⟨100, 0⟩, ⟨101, 0⟩),
           fun _ _ => .ok (some [RespStatus.resting 7]),
           fun _ => .ok ⟨true, ["success"]⟩, fun t => t⟩
          ⟨[], [], 0, []⟩ "BTC" Side.short ⟨1, 3⟩ TransportType.http none =
        .ok r s' ∧
      s'.trace = [GatewayEvent.orderCall TransportType.http
        ⟨0, false, ⟨100, 0⟩, ⟨1, 3⟩, false, Tif.Ioc⟩] := by
  have heval :
      (Dec.mul ⟨100, 0⟩ ⟨999, 3⟩).toFixed
        (getPriceDecimals "BTC" (Dec.mul ⟨100, 0⟩ ⟨999, 3⟩)) =
      (⟨100, 0⟩ : Dec) := by
    have hd : getPriceDecimals "BTC" (Dec.mul ⟨100, 0⟩ ⟨999, 3⟩) = 0 := rfl
    rw [hd]
    unfold Dec.toFixed Dec.toRat Dec.mul
    norm_num
  have h := placement_price_rounding.1 Unit Unit
    ⟨.ok ["BTC", "ETH"], fun _ => .ok (⟨100, 0⟩, ⟨101, 0⟩),
     fun _ _ => .ok (some [RespStatus.resting 7]),
     fun _ => .ok ⟨true, ["success"]⟩, fun t => t⟩
    ⟨[], [], 0, []⟩ "BTC" Side.short ⟨1, 3⟩ TransportType.http none
    ["BTC", "ETH"] 0 ⟨100, 0⟩ ⟨101, 0⟩ rfl (by decide) rfl
  obtain ⟨r, s', heq, htr⟩ := h
  refine ⟨r, s', heq, ?_⟩
  rw [htr]
  simp only [List.nil_append]
  rw [heval]
  rfl

/-- C6: when the underlying transport call of a placement raises, the
operation returns `success = false` carrying the raised error's message,
with an empty order id, and adds nothing to the pending-order registry. -/
theorem placement_transport_failure :
    ∀ (κ κc : Type) (env : OrderEnv) (s : OrderServiceState κ κc)
      (symbol : String) (side : Side) (size price : Dec)
      (tr : TransportType) (cb : Option κ) (assetUniverse : List String)
      (idx : Nat) (bid ask : Dec) (e : JsError) (msg : String),
      env.meta = .ok assetUniverse →
      assetUniverse.findIdx? (fun name => decide (name = symbol)) =
        some idx →
      env.l2Book symbol = .ok (bid, ask) →
      (∀ t req, env.order t req = .error e) →
      e.message = some msg →
      (∃ r s', placeMarketOrder env s symbol side size tr cb = .ok r s' ∧
         r.success = false ∧ r.errorMessage = some msg ∧ r.orderId = "" ∧
         s'.pendingOrders = s.pendingOrders) ∧
      (∃ r s',
         placeLimitOrder env s symbol side size price tr cb = .ok r s' ∧
         r.success = false ∧ r.errorMessage = some msg ∧ r.orderId = "" ∧
         s'.pendingOrders = s.pendingOrders) ∧
      (∃ r s',
         placePostOnlyOrder env s symbol side size price tr cb = .ok r s' ∧
         r.success = false ∧ r.errorMessage = some msg ∧ r.orderId = "" ∧
         s'.pendingOrders = s.pendingOrders) := by
  intro κ κc env s symbol side size price tr cb assetUniverse idx bid ask
    e msg hmeta hidx hl2 horder hmsg
  refine ⟨?_, ?_, ?_⟩
  · unfold placeMarketOrder placeMarketOrderBody getAssetIndex getMarketPrice
    rw [hmeta]
    dsimp only
    rw [hidx]
    dsimp only
    rw [hl2]
    dsimp only
    rw [placementDispatch_order_error _ _ _ _ _ _ e (horder _ _)]
    refine ⟨_, _, rfl, rfl, ?_, rfl, rfl⟩
    simp [placementCatch, caughtMessage, hmsg]
  · unfold placeLimitOrder placeLimitOrderBody getAssetIndex
    rw [hmeta]
    dsimp only
    rw [hidx]
    dsimp only
    rw [placementDispatch_order_error _ _ _ _ _ _ e (horder _ _)]
    refine ⟨_, _, rfl, rfl, ?_, rfl, rfl⟩
    simp [placementCatch, caughtMessage, hmsg]
  · unfold placePostOnlyOrder placePostOnlyOrderBody getAssetIndex
    rw [hmeta]
    dsimp only
    rw [hidx]
    dsimp only
    rw [placementDispatch_order_error _ _ _ _ _ _ e (horder _ _)]
    refine ⟨_, _, rfl, rfl, ?_, rfl, rfl⟩
    simp [placementCatch, caughtMessage, hmsg]

/-- Witness for C6: a market placement whose transport call raises
`"Insufficient balance"` returns a failure result carrying that message
and leaves the (empty) registry empty. -/
theorem placement_transport_failure_witness :
    ∃ (r : OrderPlacementResult) (s' : OrderServiceState Unit Unit),
      placeMarketOrder
          ⟨.ok ["BTC", "ETH"], fun _ => .ok (⟨100, 0⟩, ⟨101, 0⟩),
           fun _ _ => .error ⟨some "Insufficient balance"⟩,
           fun _ => .ok ⟨true, ["success"]⟩, fun t => t⟩
          ⟨[], [], 0, []⟩ "ETH" Side.long ⟨1, 3⟩ TransportType.http none =
        .ok r s' ∧
      r.success = false ∧ r.errorMessage = some "Insufficient balance" ∧
      r.orderId = "" ∧ s'.pendingOrders = [] := by
  have h := placement_transport_failure Unit Unit
    ⟨.ok ["BTC", "ETH"], fun _ => .ok (⟨100, 0⟩, ⟨101, 0⟩),
     fun _ _ => .error ⟨some "Insufficient balance"⟩,
     fun _ => .ok ⟨true, ["success"]⟩, fun t => t⟩
    ⟨[], [], 0, []⟩ "ETH" Side.long ⟨1, 3⟩ ⟨2000, 0⟩ TransportType.http none
    ["BTC", "ETH"] 1 ⟨100, 0⟩ ⟨101, 0⟩ ⟨some "Insufficient balance"⟩
    "Insufficient balance" rfl (by decide) rfl (fun _ _ => rfl) rfl
  exact h.1

/-- C10: none of the placement operations nor `cancelOrder` ever propagates
a thrown error to its caller: whatever the environment does — metadata
lookup, price fetch or transport call may all throw — each operation
resolves to an ordinary result (`TryResult.ok`), the `catch` having turned
any internal throw into a failure result. -/
theorem gateway_never_throws :
    ∀ (κ κc : Type) (env : OrderEnv) (s : OrderServiceState κ κc)
      (symbol : String) (side : Side) (size price : Dec)
      (tr : TransportType) (cb : Option κ) (orderId : String)
      (ccb : Option κc),
      (∃ r s', placeMarketOrder env s symbol side size tr cb = .ok r s') ∧
      (∃ r s',
        placeLimitOrder env s symbol side size price tr cb = .ok r s') ∧
      (∃ r s',
        placePostOnlyOrder env s symbol side size price tr cb = .ok r s') ∧
      (∃ r s', cancelOrder env s symbol orderId ccb = .ok r s') := by
  intro κ κc env s symbol side size price tr cb orderId ccb
  refine ⟨?_, ?_, ?_, ?_⟩
  · unfold placeMarketOrder
    cases placeMarketOrderBody env s symbol side size tr cb with
    | ok r s' => exact ⟨r, s', rfl⟩
    | thrown e s' => exact ⟨_, _, rfl⟩
  · unfold placeLimitOrder
    cases placeLimitOrderBody env s symbol side size price tr cb with
    | ok r s' => exact ⟨r, s', rfl⟩
    | thrown e s' => exact ⟨_, _, rfl⟩
  · unfold placePostOnlyOrder
    cases placePostOnlyOrderBody env s symbol side size price tr cb with
    | ok r s' => exact ⟨r, s', rfl⟩
    | thrown e s' => exact ⟨_, _, rfl⟩
  · unfold cancelOrder
    cases cancelOrderBody env s symbol orderId ccb with
    | ok r s' => exact ⟨r, s', rfl⟩
    | thrown e s' => exact ⟨_, _, rfl⟩

/-! ## Benchmark orchestrator (bench.service.ts `runBenchmark`)

The per-order execution (`executeOrder`, a long method driving the gateway,
the retry policy and the fill wait) is treated as a collaborator supplied
by the environment — a function from the configuration and order index to
that order's metrics — since the properties verified here concern the run
guard and the run-level state, not the per-order pipeline. -/

/-- Order kind `OrderType`: market (IOC), limit (GTC), post-only (ALO). -/
inductive OrderType where
  | market
  | limit
  | post_only
  deriving DecidableEq

/-- The run configuration (`BenchmarkConfig`). -/
structure BenchmarkConfig where
  symbol : String
  orderType : OrderType
  transportType : TransportType
  orderSize : Dec
  numberOfOrders : Nat
  priceOffset : Option Dec
  delayBetweenOrders : Nat
  maxOrderTimeout : Nat
  testCancelLatency : Bool
  delayCancelAfterPlacement : Nat
  maxRetries : Nat
  retryBaseDelay : Nat
  deriving DecidableEq

/-- Per-order metrics (`OrderExecutionMetrics`), restricted to the
placement-leg fields that the run-level logic reads; the optional fill and
cancel legs are carried by the source in the same record but are not
consulted by the run guard or the statistics modelled here. -/
structure OrderExecutionMetrics where
  orderId : String
  symbol : String
  side : Side
  size : Dec
  requestedPrice : Option Dec
  orderSentTime : Int
  orderReturnedTime : Int
  success : Bool
  sendToReturnLatency : Int
  errorMessage : Option String
  deriving DecidableEq

/-- The run result (`BenchmarkResult`), with the send-to-return statistics
block and the error-category histogram. -/
structure BenchmarkResult where
  config : BenchmarkConfig
  startTime : Int
  endTime : Int
  totalDuration : Int
  orders : List OrderExecutionMetrics
  successRate : ℚ
  totalSuccessfulOrders : Nat
  totalFailedOrders : Nat
  avgSendToReturnLatency : ℚ
  minSendToReturnLatency : ℚ
  maxSendToReturnLatency : ℚ
  p50SendToReturnLatency : ℚ
  p95SendToReturnLatency : ℚ
  p99SendToReturnLatency : ℚ
  errorCategories : List (String × Nat)
  deriving DecidableEq

/-- Embedding of `calculateStatistics(result)`: success counts and rate, the
send-to-return latency statistics over the ascending-sorted successful
samples, and the error-category histogram keyed by error message. -/
def calculateStatistics (result : BenchmarkResult) : BenchmarkResult :=
  let successfulOrders := result.orders.filter (fun o => o.success)
  let failedOrders := result.orders.filter (fun o => !o.success)
  let result :=
    { result with
      totalSuccessfulOrders := successfulOrders.length
      totalFailedOrders := failedOrders.length
      successRate :=
        if result.orders.length > 0 then
          (successfulOrders.length : ℚ) / (result.orders.length : ℚ) * 100
        else 0 }
  let sendToReturnLatencies :=
    (successfulOrders.map (fun o => (o.sendToReturnLatency : ℚ))).mergeSort
      (fun a b => decide (a ≤ b))
  let result :=
    if sendToReturnLatencies.length > 0 then
      { result with
        avgSendToReturnLatency :=
          sendToReturnLatencies.sum / (sendToReturnLatencies.length : ℚ)
        minSendToReturnLatency := sendToReturnLatencies.headD 0
        maxSendToReturnLatency := sendToReturnLatencies.getLastD 0
        p50SendToReturnLatency := getPercentile sendToReturnLatencies 50
        p95SendToReturnLatency := getPercentile sendToReturnLatencies 95
        p99SendToReturnLatency := getPercentile sendToReturnLatencies 99 }
    else result
  { result with
    errorCategories :=
      failedOrders.foldl
        (fun acc o =>
          let errorKey := o.errorMessage.getD "Unknown Error"
          JsMap.set acc errorKey ((JsMap.get acc errorKey).getD 0 + 1))
        result.errorCategories }

/-- The orchestrator's fields: the `isRunning` flag, the last completed
result, and the logical clock. -/
structure BenchState where
  isRunning : Bool
  currentBenchmark : Option BenchmarkResult
  tick : Nat

/-- The orchestrator's collaborators: the per-order execution pipeline and
the wall clock. -/
structure BenchEnv where
  executeOrder : BenchmarkConfig → Nat → OrderExecutionMetrics
  timeAt : Nat → Int

/-- Embedding of `runBenchmark(config)`: fail fast with the
already-running error when a run is in progress (before touching any
state); otherwise raise the flag, execute the configured number of orders
sequentially, compute the statistics, store the result as the current
benchmark and lower the flag. -/
def runBenchmark (env : BenchEnv) (s : BenchState) (config : BenchmarkConfig) :
    TryResult BenchState BenchmarkResult :=
  if s.isRunning then
    .thrown
      ⟨some "A benchmark is already running. Please wait for it to complete."⟩
      s
  else
    let s := { s with isRunning := true }
    let startTime := env.timeAt s.tick
    let s := { s with tick := s.tick + 1 }
    let orders := (List.range config.numberOfOrders).map (env.executeOrder config)
    let endTime := env.timeAt s.tick
    let s := { s with tick := s.tick + 1 }
    let result := calculateStatistics
      ⟨config, startTime, endTime, endTime - startTime, orders,
       0, 0, 0, 0, 0, 0, 0, 0, 0, []⟩
    let s := { s with currentBenchmark := some result, isRunning := false }
    .ok result s

/-- C7: calling `runBenchmark` while a run is in progress fails immediately
with the already-running error and returns the orchestrator state exactly
as it was — the running flag, the recorded current result, and the clock
are untouched, and no second run is started. -/
theorem runBenchmark_already_running_guard :
    ∀ (env : BenchEnv) (s : BenchState) (config : BenchmarkConfig),
      s.isRunning = true →
      runBenchmark env s config =
        .thrown
          ⟨some
            "A benchmark is already running. Please wait for it to complete."⟩
          s := by
  intro env s config h
  unfold runBenchmark
  simp [h]

/-- Witness for C7: with the flag raised, a concrete second start request
throws the already-running error and changes nothing. -/
theorem runBenchmark_already_running_guard_witness :
    runBenchmark ⟨fun _ _ => ⟨"", "ETH", Side.long, ⟨1, 3⟩, none, 0, 0,
        false, 0, none⟩, fun t => t⟩
      ⟨true, none, 0⟩
      ⟨"ETH", OrderType.market, TransportType.http, ⟨1, 3⟩, 5, none, 1000,
       30000, false, 2000, 3, 1000⟩ =
      .thrown
        ⟨some "A benchmark is already running. Please wait for it to complete."⟩
        ⟨true, none, 0⟩ :=
  runBenchmark_already_running_guard
    ⟨fun _ _ => ⟨"", "ETH", Side.long, ⟨1, 3⟩, none, 0, 0, false, 0, none⟩,
     fun t => t⟩
    ⟨true, none, 0⟩
    ⟨"ETH", OrderType.market, TransportType.http, ⟨1, 3⟩, 5, none, 1000,
     30000, false, 2000, 3, 1000⟩ rfl
